import Mathlib

/-!
Verification of the port-allocation subsystem in
`src/tools/_shared/utils/port_utils.py`.

The Python module is embedded shallowly:

* JSON values produced by `json.load` become the inductive `Json`
  (numbers are modelled as `Int`; nothing in the module depends on
  fractional values beyond carrying the timestamp along).
* The on-disk state of `.ports.json` becomes `FileState`: the file can be
  absent, unreadable (an `IOError` on open/read), present but not valid
  JSON (a `json.JSONDecodeError`), or present with a parsed JSON value.
* The OS socket layer is an oracle `OSModel` for the valid port range:
  binding a port in 0-65535 either succeeds or raises some `OSError`.
  For a port outside that range, CPython's `socket.bind` raises
  `OverflowError` ("bind(): port must be 0-65535") during argument
  conversion; `OverflowError` is not an `OSError`, so `except OSError`
  does not catch it.  `os_bind` encodes this split.
* The advisory lock on `.port_allocation.lock` is modelled by a
  `LockSchedule` telling, for each 100 ms poll tick, whether another
  process holds the lock at that tick (an eventually-constant schedule,
  so every acquisition strategy is computable).
* Uncaught Python exceptions surface as `PyError` / `Except` values.

Time is idealised: it advances only through the 100 ms sleeps of the
polling loop, so poll attempt `k` happens at elapsed time `100 * k` ms.
-/

namespace PortUtils

/-- Parsed JSON values as returned by `json.load`. -/
inductive Json where
  | num (n : Int)
  | str (s : String)
  | arr (xs : List Json)
  | obj (kvs : List (String × Json))

/-- Python exceptions that the module can raise and does not catch. -/
inductive PyError where
  | typeError
  | keyError
  | attributeError
  | overflowError
deriving DecidableEq

/-- Observable state of the registry file `.ports.json`. -/
inductive FileState where
  | absent
  | unreadable
  | badJson
  | content (j : Json)

/-- Python equality `s == j` between a string and a JSON value: true only
against an equal string (a string never equals a number, list or dict). -/
def pyEqStr (s : String) (j : Json) : Bool :=
  match j with
  | .str t => s == t
  | _ => false

/-- Python equality `n == j` between an integer and a JSON value. -/
def pyEqInt (n : Int) (j : Json) : Bool :=
  match j with
  | .num m => n == m
  | _ => false

/-- First value stored under key `k` in an association list (a Python
dict lookup; `json.load` never produces duplicate keys). -/
def jsonLookup (kvs : List (String × Json)) (k : String) : Option Json :=
  match kvs.find? (fun kv => kv.1 == k) with
  | some kv => some kv.2
  | none => none

/-- Python substring test `needle in hay` for strings. -/
def strContainsSub (hay needle : String) : Bool :=
  if needle.isEmpty then true
  else decide ((hay.splitOn needle).length ≥ 2)

/-- Python membership test `key in j` where `key` is a string:
keys of a dict, elements of a list, substring of a string, and a
`TypeError` on non-iterable values. -/
def pyContains (j : Json) (key : String) : Except PyError Bool :=
  match j with
  | .obj kvs => .ok (kvs.any (fun kv => kv.1 == key))
  | .arr xs => .ok (xs.any (pyEqStr key))
  | .str s => .ok (strContainsSub s key)
  | .num _ => .error .typeError

/-- Python subscription `j[k]` with a string key: dict lookup
(`KeyError` when missing), `TypeError` on strings, lists and numbers. -/
def pyStrIndex (j : Json) (k : String) : Except PyError Json :=
  match j with
  | .obj kvs =>
      match jsonLookup kvs k with
      | some v => .ok v
      | none => .error .keyError
  | .arr _ => .error .typeError
  | .str _ => .error .typeError
  | .num _ => .error .typeError

/-- Lines 169-198, `get_app_port`: returns `None` when the file is
missing; `open`/`json.load` failures (`IOError`, `JSONDecodeError`) are
caught and fall through to `return None`.  When the file parses, runs
`if app_name in ports_data: return ports_data[app_name]['port']`; shape
errors (`TypeError`, `KeyError`) raised there are not in the `except`
tuple and propagate. -/
def get_app_port (fs : FileState) (app : String) : Except PyError (Option Json) :=
  match fs with
  | .absent => .ok none
  | .unreadable => .ok none
  | .badJson => .ok none
  | .content j =>
      match pyContains j app with
      | .error e => .error e
      | .ok false => .ok none
      | .ok true =>
          match pyStrIndex j app with
          | .error e => .error e
          | .ok v =>
              match pyStrIndex v ("port") with
              | .error e => .error e
              | .ok p => .ok (some p)

/-- Lines 201-225, `get_all_app_ports`: `{}` when the file is missing,
`{}` on a caught read/parse failure, otherwise whatever `json.load`
returned (the function does not inspect the shape, so it never raises). -/
def get_all_app_ports (fs : FileState) : Json :=
  match fs with
  | .absent => .obj []
  | .unreadable => .obj []
  | .badJson => .obj []
  | .content j => j

/-! ## The OS socket layer and `is_port_available` -/

/-- Kinds of `OSError` that `socket.bind` can raise. -/
inductive OSErrorKind where
  | addrInUse
  | permissionDenied
  | other
deriving DecidableEq

/-- Outcome of attempting to bind a TCP socket (with `SO_REUSEADDR`) to
`0.0.0.0:port` for a port in the valid range: success, or some
`OSError`. -/
inductive BindResult where
  | success
  | osError (kind : OSErrorKind)
deriving DecidableEq

/-- The OS as an oracle: the outcome of binding each valid port. -/
structure OSModel where
  bind : Int → BindResult

/-- `s.bind(('0.0.0.0', port))` as CPython executes it: argument
conversion first checks the port range and raises `OverflowError`
("bind(): port must be 0-65535") for a port outside 0-65535 — before
any OS call — and only for an in-range port does the OS decide between
success and an `OSError`. -/
def os_bind (os : OSModel) (port : Int) : Except PyError BindResult :=
  if port < 0 ∨ 65535 < port then .error .overflowError
  else .ok (os.bind port)

/-- Lines 14-30, `is_port_available`: bind the port inside
`try ... except OSError: return False`; a successful bind returns `True`
(the socket is closed by the `with` block) and any `OSError` yields
`False`, but the `OverflowError` raised for an out-of-range port is not
an `OSError` and propagates. -/
def is_port_available (os : OSModel) (port : Int) : Except PyError Bool :=
  match os_bind os port with
  | .error e => .error e
  | .ok .success => .ok true
  | .ok (.osError _) => .ok false

/-! ## The advisory lock on `.port_allocation.lock` -/

/-- Whether another process holds the exclusive lock at each 100 ms poll
tick, as an eventually-constant schedule: tick `k` is governed by
`init.getD k rest`. -/
structure LockSchedule where
  init : List Bool
  rest : Bool

/-- Lock occupancy by another process at poll tick `k`. -/
def LockSchedule.held (s : LockSchedule) (k : Nat) : Bool :=
  s.init.getD k s.rest

/-- Lines 70-77 of `find_available_port_with_lock`: the polling loop.
`fcntl.flock(fd, LOCK_EX | LOCK_NB)` is attempted at tick `k` (elapsed
time `100 * k` ms); on `BlockingIOError` the loop raises the timeout
once `time.time() - start_time > 10`, i.e. once `k > 100`, and otherwise
sleeps 100 ms and retries.  The loop exits by tick 101 at the latest, so
a fuel of 102 polls makes the recursion structural without ever
reaching the fuel-exhausted branch. -/
def acquireGo (held : Nat → Bool) : Nat → Nat → Option Nat
  | _, 0 => none
  | k, fuel + 1 =>
      if held k then
        if k > 100 then none
        else acquireGo held (k + 1) fuel
      else some k

/-- The whole acquisition attempt: `some k` when the lock is acquired at
poll tick `k`, `none` when the 10-second budget elapses first. -/
def acquireLockLoop (held : Nat → Bool) : Option Nat :=
  acquireGo held 0 102

/-- `fcntl.flock(fd, LOCK_EX)` as used by `save_app_port` (line 136): a
blocking acquisition with no timeout.  It returns at the first tick at
which no other process holds the lock, and never returns when the lock
stays held forever. -/
def blockingAcquire (s : LockSchedule) : Option Nat :=
  match s.init.findIdx? (fun b => !b) with
  | some k => some k
  | none => if s.rest then none else some s.init.length

/-! ## The allocator `find_available_port_with_lock` -/

/-- Errors raised by `find_available_port_with_lock`: the two
`RuntimeError`s of lines 76 and 102-105, and any uncaught Python
exception escaping the registry read. -/
inductive PortError where
  | lockTimeout
  | exhausted (preferred : Int) (maxAttempts : Nat)
  | pyError (e : PyError)
deriving DecidableEq

/-- Lines 80-88: the allocated-port set
`{info['port'] for info in ports_data.values()}`, evaluated left to
right; a shape error in any record propagates. -/
def collectPorts : List (String × Json) → Except PyError (List Json)
  | [] => .ok []
  | kv :: rest =>
      match pyStrIndex kv.2 ("port") with
      | .error e => .error e
      | .ok p =>
          match collectPorts rest with
          | .error e => .error e
          | .ok ps => .ok (p :: ps)

/-- Lines 80-88 of `find_available_port_with_lock`: the registry read
under the lock.  A missing file and caught read/parse failures leave the
set empty; `ports_data.values()` on a non-dict raises `AttributeError`,
and record-shape errors from the set comprehension propagate (only
`JSONDecodeError` and `IOError` are caught). -/
def allocatedPorts (fs : FileState) : Except PyError (List Json) :=
  match fs with
  | .content (.obj kvs) => collectPorts kvs
  | .content _ => .error .attributeError
  | _ => .ok []

/-- Python `port in allocated_ports`: an integer equals only an equal
JSON number. -/
def portInSet (alloc : List Json) (p : Int) : Bool :=
  alloc.any (pyEqInt p)

/-- Lines 91-100: the candidate scan.  For each offset below the
remaining attempt count, the candidate is `preferred + offset`; a
candidate in the allocated set is skipped without probing, otherwise the
Liveness Prober decides; the first hit is returned, and an exception
raised by the probe (the `OverflowError` on an out-of-range candidate)
propagates out of the loop. -/
def scanFrom (alloc : Int → Bool) (os : OSModel) (preferred : Int) :
    Nat → Nat → Except PyError (Option Int)
  | _, 0 => .ok none
  | offset, r + 1 =>
      let port : Int := preferred + offset
      if alloc port then scanFrom alloc os preferred (offset + 1) r
      else
        match is_port_available os port with
        | .error e => .error e
        | .ok true => .ok (some port)
        | .ok false => scanFrom alloc os preferred (offset + 1) r

/-- The scan of lines 91-100 started at offset 0 with `max_attempts`
attempts. -/
def scanPorts (alloc : Int → Bool) (os : OSModel) (preferred : Int)
    (maxAttempts : Nat) : Except PyError (Option Int) :=
  scanFrom alloc os preferred 0 maxAttempts

/-- The world a single workspace root names: the lock schedule, the
state of `.ports.json`, the OS, and whether the `.port_allocation.lock`
sentinel exists. -/
structure WorldState where
  lock : LockSchedule
  ports : FileState
  os : OSModel
  sentinelExists : Bool

/-- Lines 33-108, `find_available_port_with_lock`, on a resolved
workspace root: touch the sentinel, acquire the lock by polling, read
the registry, scan the candidates; return the final result together
with the world left behind.  No branch writes `.ports.json`. -/
def find_available_port_with_lock_run (w : WorldState) (preferred : Int)
    (maxAttempts : Nat) : Except PortError Int × WorldState :=
  let w1 : WorldState := { w with sentinelExists := true }
  match acquireLockLoop w.lock.held with
  | none => (.error .lockTimeout, w1)
  | some _ =>
      match allocatedPorts w.ports with
      | .error e => (.error (.pyError e), w1)
      | .ok alloc =>
          match scanPorts (portInSet alloc) w.os preferred maxAttempts with
          | .error e => (.error (.pyError e), w1)
          | .ok (some port) => (.ok port, w1)
          | .ok none => (.error (.exhausted preferred maxAttempts), w1)

/-- The environment seen by the module: the auto-detected default
workspace root (`Path(__file__).parent.parent.parent`) and the world
each root names. -/
structure Env where
  defaultRoot : String
  world : String → WorldState

/-- Lines 53-56 (also 123-126, 180-183, 211-214): `workspace_root` is
used as given, or auto-detected when `None`. -/
def resolveRoot (env : Env) (wr : Option String) : String :=
  match wr with
  | none => env.defaultRoot
  | some r => r

/-- Lines 33-108, `find_available_port_with_lock`, with the
`workspace_root` parameter. -/
def find_available_port_with_lock (env : Env) (preferred : Int)
    (maxAttempts : Nat) (wr : Option String) : Except PortError Int × WorldState :=
  find_available_port_with_lock_run (env.world (resolveRoot env wr))
    preferred maxAttempts

/-- Lines 228-240, `find_available_port`: the legacy entry point, which
calls `find_available_port_with_lock(preferred_port, max_attempts)`
leaving `workspace_root` to auto-detect. -/
def find_available_port (env : Env) (preferred : Int) (maxAttempts : Nat) :
    Except PortError Int × WorldState :=
  find_available_port_with_lock env preferred maxAttempts none

/-! ## `save_app_port` -/

/-- The `AllocationRecord` built at lines 149-154 (`time.time()` passed
in as `now`). -/
def mkRecord (port : Int) (now : Int) : Json :=
  .obj [("port", .num port),
        ("url", .str ("http://localhost:" ++ toString port)),
        ("network_url_template", .str ("http://\x7bnetwork_ip\x7d:" ++ toString port)),
        ("timestamp", .num now)]

/-- Python dict assignment `d[k] = v`: replace the value in place when
the key is present, append otherwise. -/
def dictInsert (kvs : List (String × Json)) (k : String) (v : Json) :
    List (String × Json) :=
  if kvs.any (fun kv => kv.1 == k) then
    kvs.map (fun kv => if kv.1 == k then (k, v) else kv)
  else kvs ++ [(k, v)]

/-- Filesystem writes `save_app_port` performs on the workspace, in
order.  Writing the temporary `.ports.json.tmp` (possibly over several
partial writes) never touches `.ports.json`; `Path.replace` renames the
temporary file over it atomically. -/
inductive FsOp where
  | writeTemp (content : Json)
  | renameTempToTarget (content : Json)

/-- Content of `.ports.json` after a list of filesystem operations. -/
def targetAfter (orig : FileState) : List FsOp → FileState
  | [] => orig
  | .writeTemp _ :: rest => targetAfter orig rest
  | .renameTempToTarget c :: rest => targetAfter (.content c) rest

/-- Outcome of `save_app_port`: blocked forever on the lock, an uncaught
Python exception, or success with the new registry file and the write
trace. -/
inductive SaveOutcome where
  | blockedForever
  | raised (e : PyError)
  | ok (fs : FileState) (trace : List FsOp)

/-- Lines 111-166, `save_app_port`, on a resolved workspace root: touch
the sentinel, block on `flock(LOCK_EX)` (no timeout), load the registry
falling back to `{}` on a caught read/parse failure, upsert the record
under `app_name` (a `TypeError` on a non-dict propagates, after the
`finally` releases the lock), then write the temporary file and rename
it over `.ports.json`. -/
def save_app_port (lock : LockSchedule) (fs : FileState) (app : String)
    (port : Int) (now : Int) : SaveOutcome :=
  match blockingAcquire lock with
  | none => .blockedForever
  | some _ =>
      let data : Json :=
        match fs with
        | .content j => j
        | _ => .obj []
      match data with
      | .obj kvs =>
          let kvs2 := dictInsert kvs app (mkRecord port now)
          .ok (.content (.obj kvs2))
            [.writeTemp (.obj kvs2), .renameTempToTarget (.obj kvs2)]
      | _ => .raised .typeError

/-! ## Lemmas about the lock acquisitions -/

theorem acquireGo_eq_none (held : Nat → Bool) (hall : ∀ k, held k = true) :
    ∀ fuel k, acquireGo held k fuel = none := by
  intro fuel
  induction fuel with
  | zero => intro k; rfl
  | succ n ih =>
      intro k
      unfold acquireGo
      rw [hall k]
      by_cases h : k > 100
      · simp [h]
      · simp [h, ih]

theorem acquireLockLoop_eq_none (held : Nat → Bool) (hall : ∀ k, held k = true) :
    acquireLockLoop held = none :=
  acquireGo_eq_none held hall 102 0

theorem blockingAcquire_eq_none (lock : LockSchedule)
    (hall : ∀ k, lock.held k = true) : blockingAcquire lock = none := by
  have hrest : lock.rest = true := by
    have h := hall lock.init.length
    rwa [LockSchedule.held, List.getD_eq_default _ _ (Nat.le_refl _)] at h
  have hfind : lock.init.findIdx? (fun b => !b) = none := by
    rw [List.findIdx?_eq_none_iff]
    intro x hx
    obtain ⟨i, hi, rfl⟩ := List.mem_iff_getElem.mp hx
    have h := hall i
    rw [LockSchedule.held, List.getD_eq_getElem _ _ hi] at h
    simp [h]
  simp [blockingAcquire, hfind, hrest]

/-! ## Lemmas about the candidate scan -/

theorem lookup_replace (k : String) (v : Json) :
    ∀ kvs : List (String × Json), kvs.any (fun kv => kv.1 == k) = true →
      jsonLookup (kvs.map (fun kv => if kv.1 == k then (k, v) else kv)) k = some v := by
  intro kvs
  induction kvs with
  | nil => intro h; simp at h
  | cons hd tl ih =>
      intro h
      by_cases hk : (hd.1 == k) = true
      · simp [jsonLookup, List.find?, hk]
      · have hk2 : (hd.1 == k) = false := by simpa using hk
        have htl : tl.any (fun kv => kv.1 == k) = true := by
          simpa [List.any_cons, hk2] using h
        have ih2 := ih htl
        simpa [jsonLookup, List.find?, hk2] using ih2

theorem lookup_append_self (k : String) (v : Json) :
    ∀ kvs : List (String × Json), kvs.any (fun kv => kv.1 == k) = false →
      jsonLookup (kvs ++ [(k, v)]) k = some v := by
  intro kvs
  induction kvs with
  | nil => intro _; simp [jsonLookup, List.find?]
  | cons hd tl ih =>
      intro h
      have hk : (hd.1 == k) = false := by
        rcases List.any_eq_false.mp h hd (by simp) with h2
        simpa using h2
      have htl : tl.any (fun kv => kv.1 == k) = false := by
        apply List.any_eq_false.mpr
        intro x hx
        exact List.any_eq_false.mp h x (by simp [hx])
      have ih2 := ih htl
      simpa [jsonLookup, List.find?, hk] using ih2

theorem jsonLookup_dictInsert_self (kvs : List (String × Json)) (k : String)
    (v : Json) : jsonLookup (dictInsert kvs k v) k = some v := by
  unfold dictInsert
  by_cases h : kvs.any (fun kv => kv.1 == k) = true
  · rw [if_pos h]
    exact lookup_replace k v kvs h
  · have h2 : kvs.any (fun kv => kv.1 == k) = false := Bool.eq_false_iff.mpr h
    rw [if_neg (by simp [h2])]
    exact lookup_append_self k v kvs h2

theorem any_key_of_lookup (k : String) :
    ∀ kvs : List (String × Json), ∀ v, jsonLookup kvs k = some v →
      kvs.any (fun kv => kv.1 == k) = true := by
  intro kvs
  induction kvs with
  | nil => intro v h; simp [jsonLookup, List.find?] at h
  | cons hd tl ih =>
      intro v h
      by_cases hk : (hd.1 == k) = true
      · simp [List.any_cons, hk]
      · have hk2 : (hd.1 == k) = false := by simpa using hk
        rw [jsonLookup] at h
        rw [List.find?] at h
        rw [hk2] at h
        have := ih v h
        simp [List.any_cons, this]

theorem dictInsert_mem_of_ne (kvs : List (String × Json)) (k : String) (v : Json)
    (kv : String × Json) (hmem : kv ∈ kvs) (hne : kv.1 ≠ k) :
    kv ∈ dictInsert kvs k v := by
  unfold dictInsert
  by_cases h : kvs.any (fun x => x.1 == k) = true
  · rw [if_pos h]
    refine List.mem_map.mpr ⟨kv, hmem, ?_⟩
    simp [hne]
  · rw [if_neg h]
    exact List.mem_append_left _ hmem

theorem mem_of_dictInsert_ne (kvs : List (String × Json)) (k : String) (v : Json)
    (kv : String × Json) (hmem : kv ∈ dictInsert kvs k v) (hne : kv.1 ≠ k) :
    kv ∈ kvs := by
  unfold dictInsert at hmem
  by_cases h : kvs.any (fun x => x.1 == k) = true
  · rw [if_pos h] at hmem
    obtain ⟨u, hu, hukv⟩ := List.mem_map.mp hmem
    by_cases h1 : (u.1 == k) = true
    · rw [if_pos h1] at hukv
      exact absurd (congrArg Prod.fst hukv.symm) hne
    · rw [if_neg h1] at hukv
      exact hukv ▸ hu
  · rw [if_neg h] at hmem
    rcases List.mem_append.mp hmem with h2 | h2
    · exact h2
    · have : kv = (k, v) := by simpa using h2
      exact absurd (congrArg Prod.fst this) hne

theorem dictInsert_keys_of_mem (kvs : List (String × Json)) (k : String)
    (v : Json) (h : kvs.any (fun kv => kv.1 == k) = true) :
    (dictInsert kvs k v).map Prod.fst = kvs.map Prod.fst := by
  unfold dictInsert
  rw [if_pos h, List.map_map]
  apply List.map_eq_map_iff.mpr
  intro a _
  by_cases h1 : (a.1 == k) = true
  · simp [Function.comp, h1, (eq_of_beq h1).symm]
  · simp [Function.comp, h1]

theorem dictInsert_keys_of_not_mem (kvs : List (String × Json)) (k : String)
    (v : Json) (h : kvs.any (fun kv => kv.1 == k) = false) :
    (dictInsert kvs k v).map Prod.fst = kvs.map Prod.fst ++ [k] := by
  unfold dictInsert
  rw [if_neg (by simp [h]), List.map_append]
  rfl

theorem key_not_mem_of_any_eq_false (kvs : List (String × Json)) (k : String)
    (h : kvs.any (fun kv => kv.1 == k) = false) : k ∉ kvs.map Prod.fst := by
  intro hmem
  obtain ⟨u, hu, huk⟩ := List.mem_map.mp hmem
  have := List.any_eq_false.mp h u hu
  simp [huk] at this

theorem key_mem_of_any_eq_true (kvs : List (String × Json)) (k : String)
    (h : kvs.any (fun kv => kv.1 == k) = true) : k ∈ kvs.map Prod.fst := by
  obtain ⟨u, hu, huk⟩ := List.any_eq_true.mp h
  exact List.mem_map.mpr ⟨u, hu, eq_of_beq huk⟩

/-- The record stored under `app` in a registry value (for stating the
round-trip property; `none` when the value is not an object or lacks the
key). -/
def recordOf (j : Json) (app : String) : Option Json :=
  match j with
  | .obj kvs => jsonLookup kvs app
  | _ => none

theorem save_ok_extract (lock : LockSchedule) (fs : FileState) (app : String)
    (port now : Int) (fsNew : FileState) (tr : List FsOp)
    (h : save_app_port lock fs app port now = .ok fsNew tr) :
    ∃ kvs : List (String × Json),
      fsNew = .content (.obj (dictInsert kvs app (mkRecord port now))) ∧
      tr = [.writeTemp (.obj (dictInsert kvs app (mkRecord port now))),
            .renameTempToTarget (.obj (dictInsert kvs app (mkRecord port now)))] := by
  unfold save_app_port at h
  cases hacq : blockingAcquire lock with
  | none => rw [hacq] at h; exact SaveOutcome.noConfusion h
  | some k =>
      rw [hacq] at h
      cases fs with
      | absent => injection h with h1 h2; exact ⟨[], h1.symm, h2.symm⟩
      | unreadable => injection h with h1 h2; exact ⟨[], h1.symm, h2.symm⟩
      | badJson => injection h with h1 h2; exact ⟨[], h1.symm, h2.symm⟩
      | content j =>
          cases j with
          | obj kvs => injection h with h1 h2; exact ⟨kvs, h1.symm, h2.symm⟩
          | num n => exact SaveOutcome.noConfusion h
          | str s => exact SaveOutcome.noConfusion h
          | arr xs => exact SaveOutcome.noConfusion h

theorem mkRecord_port (port now : Int) :
    pyStrIndex (mkRecord port now) ("port") = .ok (.num port) := rfl

theorem mkRecord_url (port now : Int) :
    pyStrIndex (mkRecord port now) ("url") =
      .ok (.str ("http://localhost:" ++ toString port)) := rfl

theorem mkRecord_network_template (port now : Int) :
    pyStrIndex (mkRecord port now) ("network_url_template") =
      .ok (.str ("http://\x7bnetwork_ip\x7d:" ++ toString port)) := rfl

theorem get_app_port_after_insert (kvs : List (String × Json)) (app : String)
    (port now : Int) :
    get_app_port (.content (.obj (dictInsert kvs app (mkRecord port now)))) app =
      .ok (some (.num port)) := by
  have hlook := jsonLookup_dictInsert_self kvs app (mkRecord port now)
  have hany := any_key_of_lookup app (dictInsert kvs app (mkRecord port now)) _ hlook
  simp only [get_app_port, pyContains, pyStrIndex, hany, hlook, mkRecord_port]
  rfl

/-! ## The claims -/

/-- C3: when another process holds the lock at every 100 ms poll tick,
`find_available_port_with_lock` times out (the polling loop raises the
`RuntimeError` once the 10-second budget elapses, encoded in
`acquireGo`) instead of blocking or returning a port, and the world it
leaves behind is unchanged except that the sentinel file exists: in
particular the registry file is untouched. -/
theorem find_available_port_with_lock_timeout (env : Env) (wr : Option String)
    (preferred : Int) (maxAttempts : Nat)
    (hall : ∀ k, (env.world (resolveRoot env wr)).lock.held k = true) :
    find_available_port_with_lock env preferred maxAttempts wr =
      (.error .lockTimeout,
       { env.world (resolveRoot env wr) with sentinelExists := true }) := by
  rw [find_available_port_with_lock]
  unfold find_available_port_with_lock_run
  rw [acquireLockLoop_eq_none _ hall]

/-- Witness for C3: a lock held forever makes the allocator fail with
the timeout error and leave the registry state (here: absent) as it
was. -/
theorem find_available_port_with_lock_timeout_witness :
    find_available_port_with_lock
        ⟨"root", fun _ => ⟨⟨[], true⟩, .absent, ⟨fun _ => .success⟩, false⟩⟩
        4090 100 none =
      (.error .lockTimeout, ⟨⟨[], true⟩, .absent, ⟨fun _ => .success⟩, true⟩) :=
  find_available_port_with_lock_timeout _ none 4090 100 (fun _ => rfl)

/-- Counterexample for C9: the claim asserts totality without raising
for every integer port value, but `is_port_available(65536)` and
`is_port_available(-1)` raise `OverflowError` — `s.bind` raises it
during argument conversion for a port outside 0-65535, and it is not an
`OSError`, so line 29 does not catch it. -/
theorem is_port_available_overflow_counterexample :
    is_port_available ⟨fun _ => .success⟩ 65536 = .error .overflowError ∧
    is_port_available ⟨fun _ => .success⟩ (-1) = .error .overflowError :=
  ⟨rfl, rfl⟩

/-- C9 (amended): for every port in the valid range 0-65535,
`is_port_available` is total and returns a boolean without raising:
`true` exactly when the bind succeeds, and any `OSError` from the bind
(address in use, permission denied, or any other kind) yields `false`.
For a port outside that range, `s.bind` raises `OverflowError`, which
is not an `OSError` and propagates (the counterexample instantiates
this). -/
theorem is_port_available_range_spec (os : OSModel) (port : Int)
    (h0 : 0 ≤ port) (h1 : port ≤ 65535) :
    (is_port_available os port = .ok true ↔ os.bind port = .success) ∧
    (∀ kind, os.bind port = .osError kind →
      is_port_available os port = .ok false) := by
  have hin : ¬(port < 0 ∨ 65535 < port) := by omega
  constructor
  · cases h : os.bind port <;> simp [is_port_available, os_bind, hin, h]
  · intro kind h
    simp [is_port_available, os_bind, hin, h]

/-- Witness for C9 (amended): an in-range port whose bind fails with
address-in-use yields `false`. -/
theorem is_port_available_range_spec_witness :
    is_port_available ⟨fun _ => .osError .addrInUse⟩ 80 = .ok false :=
  (is_port_available_range_spec ⟨fun _ => .osError .addrInUse⟩ 80
    (by omega) (by omega)).2 .addrInUse rfl

/-- C10: the legacy entry point `find_available_port` is extensionally
equal to `find_available_port_with_lock` at the auto-detected default
workspace root: in every environment the two produce the same result
and the same final world. -/
theorem find_available_port_eq_with_lock_default (env : Env) (preferred : Int)
    (maxAttempts : Nat) :
    find_available_port env preferred maxAttempts =
      find_available_port_with_lock env preferred maxAttempts
        (some env.defaultRoot) := rfl

/-- Counterexample for C4: on a registry whose JSON parses but has an
unexpected shape (the record under the app name is a bare number),
`get_app_port` raises an uncaught `TypeError` from
`ports_data[app_name]['port']` instead of returning `None`: only
`JSONDecodeError` and `IOError` are caught. -/
theorem get_app_port_raises_on_bad_shape :
    get_app_port (.content (.obj [("app", .num 5)])) "app" =
      .error .typeError := rfl

/-- C4 (amended): `get_app_port` returns `None` when the registry file
is absent, unreadable or not valid JSON, and when the parsed registry is
a JSON object not containing the app name; `get_all_app_ports` returns
the empty mapping on a missing file and on any caught read/parse failure
and never raises.  (As the counterexample shows, `get_app_port` can
raise on parsed JSON of an unexpected shape.) -/
theorem read_ops_tolerant :
    (∀ app, get_app_port .absent app = .ok none) ∧
    (∀ app, get_app_port .unreadable app = .ok none) ∧
    (∀ app, get_app_port .badJson app = .ok none) ∧
    (∀ kvs app, kvs.any (fun kv => kv.1 == app) = false →
        get_app_port (.content (.obj kvs)) app = .ok none) ∧
    get_all_app_ports .absent = .obj [] ∧
    get_all_app_ports .unreadable = .obj [] ∧
    get_all_app_ports .badJson = .obj [] := by
  refine ⟨fun _ => rfl, fun _ => rfl, fun _ => rfl, ?_, rfl, rfl, rfl⟩
  intro kvs app h
  simp only [get_app_port, pyContains, h]

/-- Witness for C4 (amended): an app name absent from an object-shaped
registry yields `None` without raising. -/
theorem read_ops_tolerant_witness :
    get_app_port (.content (.obj [("x", .num 1)])) "y" = .ok none :=
  read_ops_tolerant.2.2.2.1 [("x", .num 1)] "y" (by decide)

theorem save_ok_extract_obj (lock : LockSchedule) (kvs : List (String × Json))
    (app : String) (port now : Int) (fsNew : FileState) (tr : List FsOp)
    (h : save_app_port lock (.content (.obj kvs)) app port now = .ok fsNew tr) :
    fsNew = .content (.obj (dictInsert kvs app (mkRecord port now))) ∧
    tr = [.writeTemp (.obj (dictInsert kvs app (mkRecord port now))),
          .renameTempToTarget (.obj (dictInsert kvs app (mkRecord port now)))] := by
  unfold save_app_port at h
  cases hacq : blockingAcquire lock with
  | none => rw [hacq] at h; exact SaveOutcome.noConfusion h
  | some k =>
      rw [hacq] at h
      injection h with h1 h2
      exact ⟨h1.symm, h2.symm⟩

/-- C5: save-then-load round-trips.  Whenever `save_app_port` completes
successfully, `get_app_port` on the resulting registry returns the saved
port, and the record `get_all_app_ports` exposes under the app name has
`port` equal to the saved port, `url` equal to
`http://localhost:<port>`, and `network_url_template` equal to the
template with the `network_ip` placeholder (only the timestamp field
depends on the save time). -/
theorem save_app_port_roundtrip (lock : LockSchedule) (fs : FileState)
    (app : String) (port now : Int) (fsNew : FileState) (tr : List FsOp)
    (h : save_app_port lock fs app port now = .ok fsNew tr) :
    get_app_port fsNew app = .ok (some (.num port)) ∧
    ∃ rec, recordOf (get_all_app_ports fsNew) app = some rec ∧
      pyStrIndex rec ("port") = .ok (.num port) ∧
      pyStrIndex rec ("url") = .ok (.str ("http://localhost:" ++ toString port)) ∧
      pyStrIndex rec ("network_url_template") =
        .ok (.str ("http://\x7bnetwork_ip\x7d:" ++ toString port)) := by
  obtain ⟨kvs, h1, -⟩ := save_ok_extract lock fs app port now fsNew tr h
  subst h1
  refine ⟨get_app_port_after_insert kvs app port now,
    mkRecord port now, ?_, mkRecord_port port now, mkRecord_url port now,
    mkRecord_network_template port now⟩
  simp [get_all_app_ports, recordOf, jsonLookup_dictInsert_self]

/-- Witness for C5: saving port 4090 for `y` over a registry holding
only `x` round-trips through both read operations. -/
theorem save_app_port_roundtrip_witness :
    get_app_port (.content (.obj [("x", Json.num 1), ("y", mkRecord 4090 7)])) "y" =
      .ok (some (.num 4090)) ∧
    ∃ rec, recordOf (get_all_app_ports
        (.content (.obj [("x", Json.num 1), ("y", mkRecord 4090 7)]))) "y" = some rec ∧
      pyStrIndex rec ("port") = .ok (.num 4090) ∧
      pyStrIndex rec ("url") = .ok (.str ("http://localhost:" ++ toString (4090 : Int))) ∧
      pyStrIndex rec ("network_url_template") =
        .ok (.str ("http://\x7bnetwork_ip\x7d:" ++ toString (4090 : Int))) :=
  save_app_port_roundtrip ⟨[], false⟩ (.content (.obj [("x", Json.num 1)]))
    "y" 4090 7 _ _ rfl

/-- C6: atomic persistence.  A successful `save_app_port` writes the
complete new registry to the temporary file and renames it over
`.ports.json`; after every prefix of its write trace the registry file
holds either the complete previous state or the complete new state, so a
concurrent lock-free reader never observes a partial write. -/
theorem save_app_port_atomic (lock : LockSchedule) (fs : FileState)
    (app : String) (port now : Int) (fsNew : FileState) (tr : List FsOp)
    (h : save_app_port lock fs app port now = .ok fsNew tr) :
    targetAfter fs tr = fsNew ∧
    ∀ n, targetAfter fs (tr.take n) = fs ∨ targetAfter fs (tr.take n) = fsNew := by
  obtain ⟨kvs, h1, h2⟩ := save_ok_extract lock fs app port now fsNew tr h
  subst h1
  subst h2
  refine ⟨rfl, ?_⟩
  intro n
  match n with
  | 0 => left; rfl
  | 1 => left; rfl
  | n + 2 =>
      right
      rw [List.take_succ_cons, List.take_succ_cons, List.take_nil]
      rfl

/-- Witness for C6: saving `a` into an empty-object registry; the trace
is the temp write followed by the rename, and each prefix shows the old
or the new file. -/
theorem save_app_port_atomic_witness :
    targetAfter (FileState.content (.obj []))
        [.writeTemp (.obj [("a", mkRecord 4090 0)]),
         .renameTempToTarget (.obj [("a", mkRecord 4090 0)])] =
      .content (.obj [("a", mkRecord 4090 0)]) ∧
    ∀ n, targetAfter (FileState.content (.obj []))
          (List.take n [.writeTemp (.obj [("a", mkRecord 4090 0)]),
            .renameTempToTarget (.obj [("a", mkRecord 4090 0)])]) =
        .content (.obj []) ∨
      targetAfter (FileState.content (.obj []))
          (List.take n [.writeTemp (.obj [("a", mkRecord 4090 0)]),
            .renameTempToTarget (.obj [("a", mkRecord 4090 0)])]) =
        .content (.obj [("a", mkRecord 4090 0)]) :=
  save_app_port_atomic ⟨[], false⟩ (.content (.obj [])) "a" 4090 0 _ _ rfl

/-- Counterexample for C7: with the lock held by another process
forever, `save_app_port` blocks indefinitely on its plain
`flock(LOCK_EX)` call (line 136) — it never fails with a timeout error,
so its acquisition does not follow the bounded polling contract the
claim asserts for every acquisition in the subsystem. -/
theorem save_app_port_blocks_forever :
    save_app_port ⟨[], true⟩ (.content (.obj [])) "app" 4090 0 =
      .blockedForever := rfl

/-- C7 (amended): only `find_available_port_with_lock` acquires the lock
through the bounded non-blocking polling loop (100 ms polls, 10 s
budget); `save_app_port` acquires it with an unbounded blocking `flock`,
so when the lock is held at every tick the polling acquisition times out
while `save_app_port` blocks indefinitely. -/
theorem lock_acquisition_split (lock : LockSchedule) (fs : FileState)
    (app : String) (port now : Int)
    (hall : ∀ k, lock.held k = true) :
    acquireLockLoop lock.held = none ∧
    save_app_port lock fs app port now = .blockedForever := by
  refine ⟨acquireLockLoop_eq_none _ hall, ?_⟩
  unfold save_app_port
  rw [blockingAcquire_eq_none lock hall]

/-- Witness for C7 (amended): the always-held schedule. -/
theorem lock_acquisition_split_witness :
    acquireLockLoop (LockSchedule.held ⟨[], true⟩) = none ∧
    save_app_port ⟨[], true⟩ .absent "app" 4090 0 = .blockedForever :=
  lock_acquisition_split ⟨[], true⟩ .absent "app" 4090 0 (fun _ => rfl)

/-- C8: frame property of `save_app_port`.  On a registry with unique
app names, a successful save changes only the record keyed by the saved
app name: every other record is preserved exactly (both directions), the
keys stay unique, the saved name holds exactly one record afterwards,
and a re-save of an existing name replaces in place (the key sequence is
unchanged). -/
theorem save_app_port_frame (lock : LockSchedule) (kvs : List (String × Json))
    (app : String) (port now : Int) (fsNew : FileState) (tr : List FsOp)
    (hnodup : (kvs.map Prod.fst).Nodup)
    (h : save_app_port lock (.content (.obj kvs)) app port now = .ok fsNew tr) :
    ∃ kvs2, fsNew = .content (.obj kvs2) ∧
      (∀ kv, kv ∈ kvs → kv.1 ≠ app → kv ∈ kvs2) ∧
      (∀ kv, kv ∈ kvs2 → kv.1 ≠ app → kv ∈ kvs) ∧
      (kvs2.map Prod.fst).Nodup ∧
      (kvs2.map Prod.fst).count app = 1 ∧
      (kvs.any (fun kv => kv.1 == app) = true →
        kvs2.map Prod.fst = kvs.map Prod.fst) := by
  obtain ⟨h1, -⟩ := save_ok_extract_obj lock kvs app port now fsNew tr h
  subst h1
  refine ⟨dictInsert kvs app (mkRecord port now), rfl,
    fun kv hm hne => dictInsert_mem_of_ne kvs app _ kv hm hne,
    fun kv hm hne => mem_of_dictInsert_ne kvs app _ kv hm hne,
    ?_, ?_, fun hany => dictInsert_keys_of_mem kvs app _ hany⟩
  · by_cases hany : kvs.any (fun kv => kv.1 == app) = true
    · rw [dictInsert_keys_of_mem kvs app _ hany]
      exact hnodup
    · have hf := Bool.eq_false_iff.mpr hany
      rw [dictInsert_keys_of_not_mem kvs app _ hf, List.nodup_append]
      refine ⟨hnodup, List.nodup_singleton _, ?_⟩
      intro a ha hb
      have hax : a = app := by simpa using hb
      exact key_not_mem_of_any_eq_false kvs app hf (hax ▸ ha)
  · by_cases hany : kvs.any (fun kv => kv.1 == app) = true
    · rw [dictInsert_keys_of_mem kvs app _ hany]
      exact List.count_eq_one_of_mem hnodup (key_mem_of_any_eq_true kvs app hany)
    · have hf := Bool.eq_false_iff.mpr hany
      rw [dictInsert_keys_of_not_mem kvs app _ hf, List.count_append,
        List.count_eq_zero.mpr (key_not_mem_of_any_eq_false kvs app hf)]
      simp

/-- Witness for C8: saving a new name `y` over a registry holding only
`x` preserves the `x` record and yields unique keys with exactly one `y`
record. -/
theorem save_app_port_frame_witness :
    ∃ kvs2, (FileState.content (.obj [("x", Json.num 1), ("y", mkRecord 4090 0)]) =
        FileState.content (.obj kvs2)) ∧
      (∀ kv, kv ∈ [("x", Json.num 1)] → kv.1 ≠ "y" → kv ∈ kvs2) ∧
      (∀ kv, kv ∈ kvs2 → kv.1 ≠ "y" → kv ∈ [("x", Json.num 1)]) ∧
      (kvs2.map Prod.fst).Nodup ∧
      (kvs2.map Prod.fst).count "y" = 1 ∧
      ([("x", Json.num 1)].any (fun kv => kv.1 == "y") = true →
        kvs2.map Prod.fst = [("x", Json.num 1)].map Prod.fst) :=
  save_app_port_frame ⟨[], false⟩ [("x", Json.num 1)] "y" 4090 0 _ _
    (by decide) rfl

end PortUtils
